import Mathlib

/-!
Verification of the `ledgerx` market-state engine (`ledgerx/market_state.py`).

The Python `MarketState` class is shallowly embedded: its `dict` collections
become association lists (`List (κ × α)` with unique keys, accessed through
`lookupKey`/`upsert`/`eraseKey`), machine integers become `Int`/`Nat`,
possibly-missing dictionary fields become `Option`, Python `assert` failures
and code paths that perform network I/O (REST fetches inside a handler)
become `Option.none` results, and wall-clock/feed inputs (days to expiry,
the resolved next-day-swap book top) are passed as explicit parameters at
the handler boundary.  Each definition mirrors one Python method of the
same name.
-/

/-- Association-list lookup: first entry whose key matches (dict access). -/
def lookupKey {κ α : Type} [DecidableEq κ] (k : κ) : List (κ × α) → Option α
  | [] => none
  | (k', v) :: t => if k' = k then some v else lookupKey k t

/-- Association-list insert-or-replace (dict assignment `d[k] = v`). -/
def upsert {κ α : Type} [DecidableEq κ] (k : κ) (v : α) : List (κ × α) → List (κ × α)
  | [] => [(k, v)]
  | (k', v') :: t => if k' = k then (k, v) :: t else (k', v') :: upsert k v t

/-- Association-list key removal (dict `del d[k]`; keys are unique). -/
def eraseKey {κ α : Type} [DecidableEq κ] (k : κ) : List (κ × α) → List (κ × α)
  | [] => []
  | (k', v') :: t => if k' = k then t else (k', v') :: eraseKey k t

/-- A contract record, as delivered by the REST catalog / feed.
`is_call` is optional because futures and swaps carry no such key. -/
structure Contract where
  id : Nat
  label : String
  underlying_asset : String
  derivative_type : String
  is_call : Option Bool
  strike_price : Int
  date_expires : String
  date_live : String
  is_next_day : Bool
  active : Bool
deriving DecidableEq, Repr

/-- An order / action-report record (feed `action_report` or REST open order). -/
structure Order where
  mid : String
  contract_id : Nat
  clock : Int
  ticks : Int
  size : Int
  price : Int
  status_type : Nat
  mpid : Option String
  is_ask : Bool
  filled_size : Int
  filled_price : Int
  updated_time : Int
  order_type : String
deriving DecidableEq, Repr

/-- A per-contract book-level entry (one resting order's public view). -/
structure BookState where
  mid : String
  is_ask : Bool
  price : Int
  size : Int
  clock : Int
deriving DecidableEq, Repr

/-- A top-of-book record: best bid / best ask (absent or 0 = none quoted). -/
structure TopBook where
  bid : Option Int
  ask : Option Int
  contract_id : Nat
  clock : Int
deriving DecidableEq, Repr

/-- A last-trade record kept per contract (built from an action report by
`handle_trade`, or a REST trade row ingested by `process_trades`). -/
structure Trade where
  contract_id : Nat
  order_type : String
  filled_price : Int
  filled_size : Int
  timestamp : Int
  contract_label : String
  side : String
  mpid : Option String
deriving DecidableEq, Repr

/-- A position record; `type` is the REST string `"long"` / `"short"`,
`basis` is absent until the fill replay stores it. -/
structure Position where
  id : Option Nat
  size : Int
  exercised_size : Int
  type : String
  basis : Option Int
  mpid : Option String
deriving DecidableEq, Repr

/-- One fill from a position's trade history (`Positions.list_all_trades`). -/
structure FillTrade where
  contract_id : Nat
  side : String
  fee : Int
  rebate : Int
  premium : Int
  filled_size : Int
deriving DecidableEq, Repr

/-- A heartbeat feed event. -/
structure Heartbeat where
  ticks : Int
  run_id : String
  timestamp : Int
deriving DecidableEq, Repr

/-- A cached cost-to-close summary (`costs_to_close` values). -/
structure CostToClose where
  net : Option Int
  cost : Option Int
  basis : Option Int
  size : Int
  bid : Option Int
  ask : Option Int
  fee : Option Int
  low : Option Int
  high : Option Int
deriving DecidableEq, Repr

/-- The engine state: one field per collection of the Python `MarketState`.
`last_trade` is `Option` because `__init__` sets it to `None` before the
first `clear()` initializes it. -/
structure MarketState where
  all_contracts : List (Nat × Contract)
  traded_contract_ids : List (Nat × Contract)
  expired_contracts : List (Nat × Contract)
  contract_positions : List (Nat × Position)
  accounts : List (String × List (String × Int))
  exp_dates : List String
  exp_strikes : List (String × List (String × List Int))
  orders : List (Nat × List (String × Order))
  book_states : List (Nat × List (String × BookState))
  book_top : List (Nat × TopBook)
  last_trade : Option (List (Nat × Trade))
  to_update_basis : List (Nat × Position)
  label_to_contract_id : List (String × Nat)
  put_call_map : List (Nat × Nat)
  costs_to_close : List (Nat × CostToClose)
  next_day_contracts : List (String × Contract)
  skip_expired : Bool
  last_heartbeat : Option Heartbeat
  mpid : Option String
  cid : Option String
deriving DecidableEq, Repr

/-- An entirely empty engine state (all collections empty). -/
def emptyMS : MarketState :=
  ⟨[], [], [], [], [], [], [], [], [], [], some [], [], [], [], [], [],
   true, none, none, none⟩

/-- `MarketState.clear`: reset every collection; `last_trade` is only
initialized when it is still `None`, otherwise it is kept as-is. -/
def MarketState.clear (st : MarketState) : MarketState :=
  ⟨[], [], [], [], [], [], [], [], [], [],
   (match st.last_trade with
    | none => some []
    | some m => some m),
   [], [], [], [], [], true, none, none, none⟩

/-- Static `MarketState.fee`: per-contract fee is `price // (5*price_units)`
(20% of price) clamped at 15, times the absolute size.  Python `//` on ints
is floored division, hence `Int.fdiv`. -/
def MarketState.fee (price size price_units : Int) : Int :=
  let fee_per_contract := Int.fdiv price (5 * price_units)
  let fee_per_contract := if fee_per_contract ≥ 15 then 15 else fee_per_contract
  |size| * fee_per_contract

/-- Static `MarketState.ask`: the ask of a top-book record, with a missing
record, a missing/None field, and a zero value all reported as `none`. -/
def MarketState.ask (top_book : Option TopBook) : Option Int :=
  match top_book with
  | none => none
  | some t =>
    match t.ask with
    | none => none
    | some a => if a ≠ 0 then some a else none

/-- Static `MarketState.bid`: the bid of a top-book record, with a missing
record, a missing/None field, and a zero value all reported as `none`. -/
def MarketState.bid (top_book : Option TopBook) : Option Int :=
  match top_book with
  | none => none
  | some t =>
    match t.bid with
    | none => none
    | some b => if b ≠ 0 then some b else none

/-- C3: the fee computation is a pure function of (price, size):
`fee price size u = min (price fdiv (5*u)) 15 * |size|`, and at the default
`price_units = 100`, `fee 884000 3 = 45` (the 15-per-contract cap applies)
and `fee 100 1 = 0` (the floor rounds to 0 below the threshold). -/
theorem fee_spec :
    (∀ price size price_units : Int,
      MarketState.fee price size price_units =
        min (Int.fdiv price (5 * price_units)) 15 * |size|) ∧
    MarketState.fee 884000 3 100 = 45 ∧
    MarketState.fee 100 1 100 = 0 := by
  refine ⟨fun price size price_units => ?_, by decide, by decide⟩
  unfold MarketState.fee
  simp only [ge_iff_le]
  split_ifs with h
  · rw [min_eq_right h, mul_comm]
  · rw [min_eq_left (not_le.mp h).le, mul_comm]

/-- C10: the static accessors report "no bid" / "no ask" exactly when the
top-book record is absent, the field is absent, or the field is zero; a
nonzero value is passed through unchanged. -/
theorem bid_ask_zero_is_absent :
    MarketState.ask none = none ∧
    MarketState.bid none = none ∧
    (∀ tb : TopBook,
      (MarketState.ask (some tb) = none ↔ tb.ask = none ∨ tb.ask = some 0) ∧
      (MarketState.bid (some tb) = none ↔ tb.bid = none ∨ tb.bid = some 0) ∧
      (∀ v : Int, MarketState.ask (some tb) = some v ↔ tb.ask = some v ∧ v ≠ 0) ∧
      (∀ v : Int, MarketState.bid (some tb) = some v ↔ tb.bid = some v ∧ v ≠ 0)) := by
  refine ⟨rfl, rfl, fun tb => ?_⟩
  obtain ⟨b, a, c, k⟩ := tb
  refine ⟨?_, ?_, fun v => ?_, fun v => ?_⟩
  · rcases a with _ | a
    · simp [MarketState.ask]
    · by_cases ha : a = 0 <;> simp [MarketState.ask, ha]
  · rcases b with _ | b
    · simp [MarketState.bid]
    · by_cases hb : b = 0 <;> simp [MarketState.bid, hb]
  · rcases a with _ | a
    · simp [MarketState.ask]
    · by_cases ha : a = 0 <;> simp [MarketState.ask, ha] <;> aesop
  · rcases b with _ | b
    · simp [MarketState.bid]
    · by_cases hb : b = 0 <;> simp [MarketState.bid, hb] <;> aesop

/-- A concrete last-trade record used in the `clear` counterexample. -/
def c9Trade : Trade :=
  ⟨1, "limit", 100, 2, 1000, "BTC-Label", "bid", none⟩

/-- A state with a non-empty last-trade map, as it stands after trades have
been observed and before a market reload calls `clear`. -/
def c9State : MarketState :=
  { emptyMS with last_trade := some [(1, c9Trade)] }

/-- C9 counterexample: `clear` (the first step of `load_market`) does not
reset the per-contract last-trade map — a non-empty map survives the clear
phase unchanged, so the claim that every listed collection (including the
last-trade map) is reset to its empty value is false. -/
theorem clear_keeps_last_trade_counterexample :
    (MarketState.clear c9State).last_trade = some [(1, c9Trade)] ∧
    some [(1, c9Trade)] ≠ (some [] : Option (List (Nat × Trade))) := by
  exact ⟨rfl, by decide⟩

/-- C9 amended: `clear` resets every engine collection — contracts,
traded-contract ids, expired contracts, positions, account balances,
expiration-date index, strike ladders, orders, book states, book tops,
pending-basis set, label map, put/call map, costs-to-close, next-day-swap
cache, last heartbeat and trader/account identifiers — to its empty/initial
value, except the per-contract last-trade map, which is only created empty
when still uninitialized and otherwise retained as-is. -/
theorem clear_spec (st : MarketState) :
    (MarketState.clear st).all_contracts = [] ∧
    (MarketState.clear st).traded_contract_ids = [] ∧
    (MarketState.clear st).expired_contracts = [] ∧
    (MarketState.clear st).contract_positions = [] ∧
    (MarketState.clear st).accounts = [] ∧
    (MarketState.clear st).exp_dates = [] ∧
    (MarketState.clear st).exp_strikes = [] ∧
    (MarketState.clear st).orders = [] ∧
    (MarketState.clear st).book_states = [] ∧
    (MarketState.clear st).book_top = [] ∧
    (MarketState.clear st).to_update_basis = [] ∧
    (MarketState.clear st).label_to_contract_id = [] ∧
    (MarketState.clear st).put_call_map = [] ∧
    (MarketState.clear st).costs_to_close = [] ∧
    (MarketState.clear st).next_day_contracts = [] ∧
    (MarketState.clear st).skip_expired = true ∧
    (MarketState.clear st).last_heartbeat = none ∧
    (MarketState.clear st).mpid = none ∧
    (MarketState.clear st).cid = none ∧
    (MarketState.clear st).last_trade =
      (match st.last_trade with
       | none => some []
       | some m => some m) := by
  repeat' constructor

/-- The assert-free replay step used to state the fill-fold: a bid-side
fill adds `fee - rebate + premium` to the running basis and `filled_size`
to the running position; an ask-side fill adds `fee - rebate - premium`
and subtracts `filled_size`.  The accumulator is `(running position,
running basis)`. -/
def basisFoldStep (acc : Int × Int) (t : FillTrade) : Int × Int :=
  if t.side = "bid" then
    (acc.1 + t.filled_size, acc.2 + (t.fee - t.rebate + t.premium))
  else
    (acc.1 - t.filled_size, acc.2 + (t.fee - t.rebate - t.premium))

/-- Replaying a fill history from `(0, 0)`. -/
def basisFold (trades : List FillTrade) : Int × Int :=
  trades.foldl basisFoldStep (0, 0)

/-- One iteration of the `process_basis_trades` loop, including its
per-trade asserts: the trade's contract id must match and the side must be
`"bid"` or `"ask"` (anything else raises, modeled as `none`). -/
def basisOptStep (cid : Nat) (acc : Option (Int × Int)) (t : FillTrade) :
    Option (Int × Int) :=
  match acc with
  | none => none
  | some pb =>
    if t.contract_id = cid then
      if t.side = "bid" then
        some (pb.1 + t.filled_size, pb.2 + (t.fee - t.rebate + t.premium))
      else if t.side = "ask" then
        some (pb.1 - t.filled_size, pb.2 + (t.fee - t.rebate - t.premium))
      else none
    else none

/-- `MarketState.process_basis_trades`: replay a position's fill history.
After the fold, the position-type sign asserts run (`short` requires a
non-positive replayed size, `long` a non-negative one; assert failure is
`none`).  If the replayed size differs from the position's reported size
the computed basis is discarded and `update_all_positions` is called — a
network-backed full refresh, modeled as the returned `true` flag with the
local state untouched.  Only on a match is the basis stored on the position
and the contract dropped from the pending-basis set (flag `false`). -/
def MarketState.process_basis_trades (st : MarketState) (contract : Contract)
    (position : Position) (trades : List FillTrade) :
    Option (MarketState × Bool) :=
  let cid := contract.id
  match trades.foldl (basisOptStep cid) (some (0, 0)) with
  | none => none
  | some pb =>
    let sign_ok : Bool :=
      if position.type = "short" then decide (pb.1 ≤ 0)
      else if position.type = "long" then decide (0 ≤ pb.1)
      else false
    if sign_ok then
      if pb.1 ≠ position.size then
        some (st, true)
      else
        some ({ st with
                 contract_positions :=
                   upsert cid { position with basis := some pb.2 } st.contract_positions,
                 to_update_basis := eraseKey cid st.to_update_basis }, false)
    else none

/-- The faithful optional fold agrees with the assert-free replay when every
fill matches the contract and has a recognized side. -/
theorem basisOptStep_fold_eq (cid : Nat) (trades : List FillTrade)
    (h : ∀ t ∈ trades, t.contract_id = cid ∧ (t.side = "bid" ∨ t.side = "ask")) :
    ∀ acc : Int × Int,
      trades.foldl (basisOptStep cid) (some acc) =
        some (trades.foldl basisFoldStep acc) := by
  induction trades with
  | nil => intro acc; rfl
  | cons t ts ih =>
    intro acc
    have ht := h t (List.mem_cons_self t ts)
    have hts : ∀ u ∈ ts, u.contract_id = cid ∧ (u.side = "bid" ∨ u.side = "ask") :=
      fun u hu => h u (List.mem_cons_of_mem t hu)
    simp only [List.foldl_cons]
    rcases ht with ⟨hcid, hside⟩
    rcases hside with hb | ha
    · rw [show basisOptStep cid (some acc) t =
          some (basisFoldStep acc t) by simp [basisOptStep, basisFoldStep, hcid, hb]]
      exact ih hts _
    · have hba : t.side ≠ "bid" ∨ t.side = "bid" := by tauto
      rw [show basisOptStep cid (some acc) t =
          some (basisFoldStep acc t) by
        by_cases hbid : t.side = "bid"
        · simp [basisOptStep, basisFoldStep, hcid, hbid]
        · simp [basisOptStep, basisFoldStep, hcid, hbid, ha]]
      exact ih hts _

/-- C1: for every position and fill list, the basis recomputation folds the
fills with bid-side fills adding `fee - rebate + premium` to the basis and
`filled_size` to the running position, ask-side fills adding
`fee - rebate - premium` and subtracting `filled_size`; when the replayed
size differs from the reported size the computed basis is not stored (state
unchanged) and a full all-position refresh is triggered; only when they
match is the basis stored and the contract removed from the pending-basis
set. -/
theorem process_basis_trades_spec (st : MarketState) (contract : Contract)
    (position : Position) (trades : List FillTrade)
    (h1 : ∀ t ∈ trades, t.contract_id = contract.id ∧ (t.side = "bid" ∨ t.side = "ask"))
    (h2 : (position.type = "short" ∧ (basisFold trades).1 ≤ 0) ∨
          (position.type = "long" ∧ 0 ≤ (basisFold trades).1)) :
    (∀ (acc : Int × Int) (t : FillTrade),
      (t.side = "bid" →
        basisFoldStep acc t =
          (acc.1 + t.filled_size, acc.2 + (t.fee - t.rebate + t.premium))) ∧
      (t.side ≠ "bid" →
        basisFoldStep acc t =
          (acc.1 - t.filled_size, acc.2 + (t.fee - t.rebate - t.premium)))) ∧
    ((basisFold trades).1 ≠ position.size →
      st.process_basis_trades contract position trades = some (st, true)) ∧
    ((basisFold trades).1 = position.size →
      st.process_basis_trades contract position trades =
        some ({ st with
                 contract_positions :=
                   upsert contract.id { position with basis := some (basisFold trades).2 }
                     st.contract_positions,
                 to_update_basis := eraseKey contract.id st.to_update_basis }, false)) := by
  have hfold := basisOptStep_fold_eq contract.id trades h1 (0, 0)
  have hsign :
      (if position.type = "short" then decide ((basisFold trades).1 ≤ 0)
       else if position.type = "long" then decide (0 ≤ (basisFold trades).1)
       else false) = true := by
    rcases h2 with ⟨hty, hle⟩ | ⟨hty, hle⟩
    · simp [hty, hle]
    · have : position.type ≠ "short" ∨ position.type = "short" := by tauto
      by_cases hsh : position.type = "short"
      · rw [hty] at hsh; simp at hsh
      · simp [hsh, hty, hle]
  refine ⟨fun acc t => ⟨fun hb => ?_, fun hnb => ?_⟩, fun hne => ?_, fun heq => ?_⟩
  · simp [basisFoldStep, hb]
  · simp [basisFoldStep, hnb]
  · simp only [MarketState.process_basis_trades]
    rw [hfold]
    show (if _ = true then _ else none) = _
    simp only [basisFold] at hsign hne
    rw [hsign, if_pos rfl, if_pos hne]
  · simp only [MarketState.process_basis_trades]
    rw [hfold]
    show (if _ = true then _ else none) = _
    simp only [basisFold] at hsign heq
    rw [hsign, if_pos rfl, if_neg (not_not_intro heq)]
    simp only [basisFold]

/-- A concrete long position of size 2 for the C1 witness. -/
def c1Position : Position := ⟨some 11, 2, 0, "long", none, none⟩

/-- A concrete contract for the C1 witness. -/
def c1Contract : Contract :=
  ⟨1, "BTC-Label", "BTC", "options_contract", some true, 10000,
   "2031-01-01 00:00:00+0000", "2020-01-01 00:00:00+0000", false, true⟩

/-- A concrete state tracking the C1 position, with its basis pending. -/
def c1State : MarketState :=
  { emptyMS with
     contract_positions := [(1, c1Position)],
     to_update_basis := [(1, c1Position)] }

/-- Two concrete fills: a buy of 3 and a sale of 1, net position 2. -/
def c1Trades : List FillTrade :=
  [⟨1, "bid", 10, 1, 500, 3⟩, ⟨1, "ask", 10, 2, 200, 1⟩]

/-- C1 witness: on a fill history whose replayed size matches the reported
size, the basis `(10-1+500) + (10-2-200) = 317` is stored on the position
and the contract leaves the pending-basis set. -/
theorem process_basis_trades_spec_witness :
    (∀ t ∈ c1Trades, t.contract_id = c1Contract.id ∧ (t.side = "bid" ∨ t.side = "ask")) ∧
    c1State.process_basis_trades c1Contract c1Position c1Trades =
      some ({ c1State with
               contract_positions := [(1, { c1Position with basis := some 317 })],
               to_update_basis := [] }, false) := by
  refine ⟨by decide, ?_⟩
  have h := (process_basis_trades_spec c1State c1Contract c1Position c1Trades
      (by decide) (Or.inr (by decide))).2.2 (by decide)
  rw [h]
  rfl

/-- One loop iteration of `get_top_from_book_state` on the running best ask:
an ask entry lowers the running minimum, a bid entry leaves it alone. -/
def askStep (a : Option Int) (e : BookState) : Option Int :=
  if e.is_ask then
    match a with
    | none => some e.price
    | some x => if x > e.price then some e.price else some x
  else a

/-- One loop iteration of `get_top_from_book_state` on the running best bid:
a bid entry raises the running maximum, an ask entry leaves it alone. -/
def bidStep (b : Option Int) (e : BookState) : Option Int :=
  if e.is_ask then b
  else
    match b with
    | none => some e.price
    | some x => if x < e.price then some e.price else some x

/-- One loop iteration of `get_top_from_book_state` on the running clock:
keep the larger of the running clock and the entry's clock. -/
def clockStep (c : Int) (e : BookState) : Int :=
  if c < e.clock then e.clock else c

/-- The combined loop body of `get_top_from_book_state`: each entry updates
best ask or best bid according to its side, and always the max clock. -/
def topStep (acc : Option Int × Option Int × Int) (p : String × BookState) :
    Option Int × Option Int × Int :=
  (askStep acc.1 p.2, bidStep acc.2.1 p.2, clockStep acc.2.2 p.2)

/-- The top-of-book record recomputed by a full scan of a contract's book
entries, with the clock initialized to -1 as in the source. -/
def topFromBooks (contract_id : Nat) (books : List (String × BookState)) : TopBook :=
  let f := books.foldl topStep (none, none, -1)
  ⟨f.2.1, f.1, contract_id, f.2.2⟩

/-- `MarketState.get_top_from_book_state`: recompute the top of book for a
contract whose book-state map is loaded (a missing map or missing contract
would trigger a network load, modeled as `none`; the per-entry
`mid == book['mid']` assert is modeled in the same way).  The recomputed
top is stored only when there is no stored top or the stored top's clock is
smaller. -/
def MarketState.get_top_from_book_state (st : MarketState) (contract_id : Nat) :
    Option (TopBook × MarketState) :=
  match lookupKey contract_id st.book_states with
  | none => none
  | some books =>
    match lookupKey contract_id st.all_contracts with
    | none => none
    | some _ =>
      if books.all (fun p => p.1 = p.2.mid) then
        let top := topFromBooks contract_id books
        match lookupKey contract_id st.book_top with
        | none => some (top, { st with book_top := upsert contract_id top st.book_top })
        | some t =>
          if t.clock < top.clock then
            some (top, { st with book_top := upsert contract_id top st.book_top })
          else some (top, st)
      else none

/-- The combined fold splits into the three independent component folds. -/
theorem topStep_fold_components (books : List (String × BookState)) :
    ∀ (a b : Option Int) (c : Int),
      books.foldl topStep (a, b, c) =
        (books.foldl (fun x p => askStep x p.2) a,
         books.foldl (fun x p => bidStep x p.2) b,
         books.foldl (fun x p => clockStep x p.2) c) := by
  induction books with
  | nil => intro a b c; rfl
  | cons e t ih => intro a b c; simp only [List.foldl_cons]; exact ih _ _ _

/-- `if x < p then p else x` is `max x p` on `Int`. -/
theorem if_lt_eq_max (x p : Int) : (if x < p then p else x) = max x p := by
  rcases le_or_lt p x with h | h
  · rw [if_neg (not_lt.mpr h), max_eq_left h]
  · rw [if_pos h, max_eq_right h.le]

/-- `if x > p then p else x` is `min x p` on `Int`. -/
theorem if_gt_eq_min (x p : Int) : (if x > p then p else x) = min x p := by
  rcases le_or_lt x p with h | h
  · rw [if_neg (not_lt.mpr h), min_eq_left h]
  · rw [if_pos h, min_eq_right h.le]

/-- A bid-side entry advances the running bid maximum. -/
theorem bidStep_bid_some (e : BookState) (ha : e.is_ask = false) (x : Int) :
    bidStep (some x) e = some (max x e.price) := by
  unfold bidStep
  rw [ha, if_neg (by simp)]
  show (if x < e.price then some e.price else some x) = some (max x e.price)
  rw [← apply_ite some, if_lt_eq_max]

/-- A bid-side entry initializes an empty running bid. -/
theorem bidStep_bid_none (e : BookState) (ha : e.is_ask = false) :
    bidStep none e = some e.price := by
  unfold bidStep
  rw [ha, if_neg (by simp)]

/-- An ask-side entry leaves the running bid unchanged. -/
theorem bidStep_ask (e : BookState) (ha : e.is_ask = true) (b : Option Int) :
    bidStep b e = b := by
  unfold bidStep
  rw [ha, if_pos rfl]

/-- An ask-side entry advances the running ask minimum. -/
theorem askStep_ask_some (e : BookState) (ha : e.is_ask = true) (x : Int) :
    askStep (some x) e = some (min x e.price) := by
  unfold askStep
  rw [ha, if_pos rfl]
  show (if x > e.price then some e.price else some x) = some (min x e.price)
  rw [← apply_ite some, if_gt_eq_min]

/-- An ask-side entry initializes an empty running ask. -/
theorem askStep_ask_none (e : BookState) (ha : e.is_ask = true) :
    askStep none e = some e.price := by
  unfold askStep
  rw [ha, if_pos rfl]

/-- A bid-side entry leaves the running ask unchanged. -/
theorem askStep_bid (e : BookState) (ha : e.is_ask = false) (a : Option Int) :
    askStep a e = a := by
  unfold askStep
  rw [ha, if_neg (by simp)]

/-- The bid fold started from a known value computes the running maximum of
the bid-side prices. -/
theorem bidFold_some (books : List (String × BookState)) :
    ∀ x : Int,
      books.foldl (fun acc p => bidStep acc p.2) (some x) =
        some (((books.filter (fun p => !p.2.is_ask)).map
          (fun p => p.2.price)).foldl max x) := by
  induction books with
  | nil => intro x; rfl
  | cons e t ih =>
    intro x
    cases ha : e.2.is_ask with
    | true =>
      simp only [List.foldl_cons, List.filter_cons, ha, Bool.not_true, if_neg,
        Bool.false_eq_true, not_false_iff, bidStep_ask e.2 ha]
      exact ih x
    | false =>
      simp only [List.foldl_cons, List.filter_cons, ha, Bool.not_false, if_pos,
        List.map_cons, bidStep_bid_some e.2 ha]
      exact ih _

/-- The bid fold computes the maximum of the bid-side prices. -/
theorem bidFold_eq_max (books : List (String × BookState)) :
    books.foldl (fun acc p => bidStep acc p.2) none =
      ((books.filter (fun p => !p.2.is_ask)).map (fun p => p.2.price)).max? := by
  induction books with
  | nil => rfl
  | cons e t ih =>
    cases ha : e.2.is_ask with
    | true =>
      simp only [List.foldl_cons, List.filter_cons, ha, Bool.not_true, if_neg,
        Bool.false_eq_true, not_false_iff, bidStep_ask e.2 ha]
      exact ih
    | false =>
      simp only [List.foldl_cons, List.filter_cons, ha, Bool.not_false, if_pos,
        List.map_cons, bidStep_bid_none e.2 ha]
      rw [bidFold_some, List.max?]

/-- The ask fold started from a known value computes the running minimum of
the ask-side prices. -/
theorem askFold_some (books : List (String × BookState)) :
    ∀ x : Int,
      books.foldl (fun acc p => askStep acc p.2) (some x) =
        some (((books.filter (fun p => p.2.is_ask)).map
          (fun p => p.2.price)).foldl min x) := by
  induction books with
  | nil => intro x; rfl
  | cons e t ih =>
    intro x
    cases ha : e.2.is_ask with
    | true =>
      simp only [List.foldl_cons, List.filter_cons, ha, if_pos, List.map_cons,
        askStep_ask_some e.2 ha]
      exact ih _
    | false =>
      simp only [List.foldl_cons, List.filter_cons, ha, Bool.false_eq_true,
        not_false_iff, if_neg, askStep_bid e.2 ha]
      exact ih x

/-- The ask fold computes the minimum of the ask-side prices. -/
theorem askFold_eq_min (books : List (String × BookState)) :
    books.foldl (fun acc p => askStep acc p.2) none =
      ((books.filter (fun p => p.2.is_ask)).map (fun p => p.2.price)).min? := by
  induction books with
  | nil => rfl
  | cons e t ih =>
    cases ha : e.2.is_ask with
    | true =>
      simp only [List.foldl_cons, List.filter_cons, ha, if_pos, List.map_cons,
        askStep_ask_none e.2 ha]
      rw [askFold_some, List.min?]
    | false =>
      simp only [List.foldl_cons, List.filter_cons, ha, Bool.false_eq_true,
        not_false_iff, if_neg, askStep_bid e.2 ha]
      exact ih

/-- The clock fold from a known start computes the running maximum clock. -/
theorem clockFold_eq (books : List (String × BookState)) :
    ∀ c : Int,
      books.foldl (fun x p => clockStep x p.2) c =
        (books.map (fun p => p.2.clock)).foldl max c := by
  induction books with
  | nil => intro c; rfl
  | cons e t ih =>
    intro c
    simp only [List.foldl_cons, List.map_cons, clockStep]
    rw [if_lt_eq_max]
    exact ih _

/-- The example book entries of the claim: two bids at 100 and 120 and one
ask at 150. -/
def c4ExBooks : List (String × BookState) :=
  [("a", ⟨"a", false, 100, 1, 1⟩), ("b", ⟨"b", false, 120, 1, 2⟩),
   ("c", ⟨"c", true, 150, 1, 3⟩)]

/-- C4: for a contract whose book-state map is loaded, the recomputed top
of book has bid equal to the maximum bid-side price, ask equal to the
minimum ask-side price (each absent when no such entry exists), and clock
equal to the maximum entry clock; it replaces the stored top only when its
clock is strictly greater than the stored top's clock; on the example
entries `[(bid,100),(bid,120),(ask,150)]` it yields bid 120 and ask 150. -/
theorem get_top_from_book_state_spec (st : MarketState) (contract_id : Nat)
    (books : List (String × BookState)) (c : Contract)
    (hb : lookupKey contract_id st.book_states = some books)
    (hc : lookupKey contract_id st.all_contracts = some c)
    (hm : books.all (fun p => p.1 = p.2.mid) = true) :
    ((topFromBooks contract_id books).bid =
      ((books.filter (fun p => !p.2.is_ask)).map (fun p => p.2.price)).max?) ∧
    ((topFromBooks contract_id books).ask =
      ((books.filter (fun p => p.2.is_ask)).map (fun p => p.2.price)).min?) ∧
    (books ≠ [] → (∀ p ∈ books, 0 ≤ p.2.clock) →
      (books.map (fun p => p.2.clock)).max? =
        some (topFromBooks contract_id books).clock) ∧
    (∀ t0, lookupKey contract_id st.book_top = some t0 →
      st.get_top_from_book_state contract_id =
        some (topFromBooks contract_id books,
          if t0.clock < (topFromBooks contract_id books).clock then
            { st with book_top :=
                upsert contract_id (topFromBooks contract_id books) st.book_top }
          else st)) ∧
    ((topFromBooks 7 c4ExBooks).bid = some 120 ∧
     (topFromBooks 7 c4ExBooks).ask = some 150) := by
  have hcomp := topStep_fold_components books none none (-1)
  refine ⟨?_, ?_, ?_, ?_, by decide, by decide⟩
  · show (books.foldl topStep (none, none, -1)).2.1 = _
    rw [hcomp]
    exact bidFold_eq_max books
  · show (books.foldl topStep (none, none, -1)).1 = _
    rw [hcomp]
    exact askFold_eq_min books
  · intro hne hcl
    rcases books with _ | ⟨b, t⟩
    · exact absurd rfl hne
    · show _ = some (((b :: t).foldl topStep (none, none, -1)).2.2)
      rw [topStep_fold_components]
      rw [clockFold_eq]
      simp only [List.map_cons, List.foldl_cons, List.max?]
      have h0 : (0 : Int) ≤ b.2.clock := hcl b (List.mem_cons_self b t)
      rw [max_eq_right (by linarith : (-1 : Int) ≤ b.2.clock)]
  · intro t0 ht0
    by_cases hlt : t0.clock < (topFromBooks contract_id books).clock
    · simp only [MarketState.get_top_from_book_state, hb, hc, hm, ht0,
        eq_self_iff_true, if_true, hlt, ite_true]
    · simp only [MarketState.get_top_from_book_state, hb, hc, hm, ht0,
        eq_self_iff_true, if_true, hlt, ite_false]

/-- A concrete contract, state and book map for the C4 witness: the stored
top has clock 0, older than the recomputed clock 3, so it is replaced. -/
def c4State : MarketState :=
  { emptyMS with
     all_contracts := [(7, { c1Contract with id := 7 })],
     book_states := [(7, c4ExBooks)],
     book_top := [(7, ⟨none, none, 7, 0⟩)] }

/-- C4 witness: on the example books the recomputed top (bid 120, ask 150,
clock 3) is stored because the stored top's clock 0 is smaller. -/
theorem get_top_from_book_state_spec_witness :
    lookupKey 7 c4State.book_states = some c4ExBooks ∧
    c4State.get_top_from_book_state 7 =
      some (topFromBooks 7 c4ExBooks,
        { c4State with book_top := upsert 7 (topFromBooks 7 c4ExBooks) c4State.book_top }) := by
  refine ⟨by decide, ?_⟩
  have h := (get_top_from_book_state_spec c4State 7 c4ExBooks { c1Contract with id := 7 }
      (by decide) (by decide) (by decide)).2.2.2.1 ⟨none, none, 7, 0⟩ (by decide)
  rw [h, if_pos (by decide)]

/-- Which logging branch `book_top_action` took: erroneous id-0 event,
update applied, exact duplicate ignored, same-clock conflict logged, or
stale event ignored. -/
inductive BookTopOutcome
  | erroneous
  | updated
  | duplicate
  | conflict
  | stale
deriving DecidableEq, Repr

/-- `MarketState.book_top_action`: apply a feed `book_top` event.  A
contract id of 0 is rejected.  An unknown contract triggers network loads
(modeled as `none`).  With no stored top the event is stored first; then
the event replaces the stored top only when its clock is strictly greater;
an equal clock with identical bid and ask is an ignored duplicate, an equal
clock with different bid or ask is a logged conflict with the stored top
kept, and a smaller clock is stale.  The returned `Bool` is the method's
return value; the assert `contract_id == top['contract_id']` failing is
`none`. -/
def MarketState.book_top_action (st : MarketState) (action : TopBook) :
    Option (MarketState × Bool × BookTopOutcome) :=
  let contract_id := action.contract_id
  if contract_id = 0 then some (st, false, .erroneous)
  else
    match lookupKey contract_id st.all_contracts with
    | none => none
    | some _ =>
      let stored := lookupKey contract_id st.book_top
      let st1 :=
        match stored with
        | none => { st with book_top := upsert contract_id action st.book_top }
        | some _ => st
      let top :=
        match stored with
        | none => action
        | some t => t
      if top.contract_id = contract_id then
        if top.clock < action.clock then
          some ({ st1 with book_top := upsert contract_id action st1.book_top },
            true, .updated)
        else
          if top.clock = action.clock then
            if top.ask = action.ask ∧ top.bid = action.bid then
              some (st1, false, .duplicate)
            else some (st1, false, .conflict)
          else some (st1, false, .stale)
      else none

/-- C5: with a stored top present, a `book_top` event with an equal clock
never changes the stored state — identical bid/ask is dropped as a
duplicate and a differing bid or ask is a logged conflict with the first
(stored) top kept, never merged; an event with a smaller clock is stale and
ignored; only a strictly greater clock replaces the stored top. -/
theorem book_top_action_spec (st : MarketState) (action t0 : TopBook) (c : Contract)
    (hnz : action.contract_id ≠ 0)
    (hc : lookupKey action.contract_id st.all_contracts = some c)
    (ht : lookupKey action.contract_id st.book_top = some t0)
    (hid : t0.contract_id = action.contract_id) :
    (t0.clock = action.clock →
      (t0.ask = action.ask ∧ t0.bid = action.bid →
        st.book_top_action action = some (st, false, .duplicate)) ∧
      (¬(t0.ask = action.ask ∧ t0.bid = action.bid) →
        st.book_top_action action = some (st, false, .conflict))) ∧
    (t0.clock < action.clock →
      st.book_top_action action =
        some ({ st with book_top := upsert action.contract_id action st.book_top },
          true, .updated)) ∧
    (action.clock < t0.clock →
      st.book_top_action action = some (st, false, .stale)) := by
  refine ⟨fun heq => ⟨fun hsame => ?_, fun hdiff => ?_⟩, fun hlt => ?_, fun hgt => ?_⟩
  · simp only [MarketState.book_top_action, hnz, hc, ht, hid, heq,
      eq_self_iff_true, if_true, ite_false, lt_self_iff_false, hsame,
      if_false, and_self, ite_true]
  · simp only [MarketState.book_top_action, hnz, hc, ht, hid, heq,
      eq_self_iff_true, if_true, ite_false, lt_self_iff_false, hdiff,
      if_false, ite_true]
  · simp only [MarketState.book_top_action, hnz, hc, ht, hid, hlt,
      eq_self_iff_true, if_true, ite_true, if_false, ite_false]
  · have h1 : ¬ t0.clock < action.clock := not_lt.mpr hgt.le
    have h2 : t0.clock ≠ action.clock := ne_of_gt hgt
    simp only [MarketState.book_top_action, hnz, hc, ht, hid, h1, h2,
      eq_self_iff_true, if_true, ite_false, if_false]

/-- A concrete state with a stored top (clock 5, bid 100, ask 110) for
contract 3, used by the C5 witness. -/
def c5State : MarketState :=
  { emptyMS with
     all_contracts := [(3, { c1Contract with id := 3 })],
     book_top := [(3, ⟨some 100, some 110, 3, 5⟩)] }

/-- C5 witness: an event for contract 3 with the same clock 5 but a
different bid is kept out — the stored top is unchanged and the branch
taken is the conflict branch. -/
theorem book_top_action_spec_witness :
    (⟨some 100, some 110, 3, 5⟩ : TopBook).clock = (⟨some 90, some 110, 3, 5⟩ : TopBook).clock ∧
    c5State.book_top_action ⟨some 90, some 110, 3, 5⟩ =
      some (c5State, false, .conflict) := by
  refine ⟨rfl, ?_⟩
  exact (book_top_action_spec c5State ⟨some 90, some 110, 3, 5⟩ ⟨some 100, some 110, 3, 5⟩
    { c1Contract with id := 3 } (by decide) (by decide) (by decide) rfl).1 rfl |>.2 (by decide)

/-- Result of the staleness-checked top query: either a book reload is
triggered, or the top bid and ask book-state entries are derived directly
from the cached entries together with the computed lag. -/
inductive TopBookStatesResult
  | reload
  | derived (top_bid : Option BookState) (top_ask : Option BookState) (lag : Int)
deriving DecidableEq, Repr

/-- One loop iteration of the `get_top_book_states` derivation on the
running best bid entry (a copy of the whole book state is kept). -/
def bsBidStep (b : Option BookState) (e : BookState) : Option BookState :=
  if e.is_ask then b
  else
    match b with
    | none => some e
    | some x => if x.price < e.price then some e else some x

/-- One loop iteration of the `get_top_book_states` derivation on the
running best ask entry. -/
def bsAskStep (a : Option BookState) (e : BookState) : Option BookState :=
  if e.is_ask then
    match a with
    | none => some e
    | some x => if x.price > e.price then some e else some x
  else a

/-- `MarketState.get_top_book_states`: compare the stored top's clock with
the max clock among the contract's book-state entries.  A negative lag
(stored top behind the entries) is clamped to 0 — the entries are trusted
and no reload happens; the books are reloaded only when the stored top is
absent, the book-state map is absent, or the stored top leads the entries
by more than `clock_lag`.  The reload itself is a network call followed by
the same derivation on the refreshed entries; it is modeled as the
`.reload` decision. -/
def MarketState.get_top_book_states (st : MarketState) (contract_id : Nat)
    (clock_lag : Int) : TopBookStatesResult :=
  let entry := lookupKey contract_id st.book_states
  let stored := lookupKey contract_id st.book_top
  let top_clock : Int :=
    match entry with
    | none => -1
    | some l => l.foldl (fun x p => clockStep x p.2) (-1)
  let lag : Int :=
    match stored with
    | none => -1
    | some t => if t.clock - top_clock < 0 then 0 else t.clock - top_clock
  if lag < 0 ∨ clock_lag < lag ∨ stored = none ∨ entry = none then .reload
  else
    match entry with
    | none => .reload
    | some l =>
      .derived (l.foldl (fun b p => bsBidStep b p.2) none)
        (l.foldl (fun a p => bsAskStep a p.2) none) lag

/-- The best-bid entry fold projects to the price-level bid fold. -/
theorem bsBidFold_price (books : List (String × BookState)) :
    ∀ acc : Option BookState,
      (books.foldl (fun b p => bsBidStep b p.2) acc).map (fun x => x.price) =
        books.foldl (fun b p => bidStep b p.2) (acc.map (fun x => x.price)) := by
  induction books with
  | nil => intro acc; rfl
  | cons e t ih =>
    intro acc
    simp only [List.foldl_cons]
    rw [show bidStep (acc.map (fun x => x.price)) e.2 =
        (bsBidStep acc e.2).map (fun x => x.price) from ?_]
    · exact ih _
    · cases ha : e.2.is_ask with
      | true => simp [bidStep, bsBidStep, ha]
      | false =>
        rcases acc with _ | x
        · simp [bidStep, bsBidStep, ha]
        · by_cases hp : x.price < e.2.price
          · simp [bidStep, bsBidStep, ha, hp]
          · simp [bidStep, bsBidStep, ha, hp]

/-- The best-ask entry fold projects to the price-level ask fold. -/
theorem bsAskFold_price (books : List (String × BookState)) :
    ∀ acc : Option BookState,
      (books.foldl (fun a p => bsAskStep a p.2) acc).map (fun x => x.price) =
        books.foldl (fun a p => askStep a p.2) (acc.map (fun x => x.price)) := by
  induction books with
  | nil => intro acc; rfl
  | cons e t ih =>
    intro acc
    simp only [List.foldl_cons]
    rw [show askStep (acc.map (fun x => x.price)) e.2 =
        (bsAskStep acc e.2).map (fun x => x.price) from ?_]
    · exact ih _
    · cases ha : e.2.is_ask with
      | false => simp [askStep, bsAskStep, ha]
      | true =>
        rcases acc with _ | x
        · simp [askStep, bsAskStep, ha]
        · by_cases hp : x.price > e.2.price
          · simp [askStep, bsAskStep, ha, hp]
          · simp [askStep, bsAskStep, ha, hp]

/-- A single bid entry with clock 10 for the C6 scenario. -/
def c6Books : List (String × BookState) := [("a", ⟨"a", false, 100, 1, 10⟩)]

/-- A stored top with clock 5, strictly behind the entries' max clock 10. -/
def c6Top : TopBook := ⟨some 100, none, 4, 5⟩

/-- A state whose stored top for contract 4 is behind its book entries. -/
def c6State : MarketState :=
  { emptyMS with book_states := [(4, c6Books)], book_top := [(4, c6Top)] }

/-- C6 counterexample: with the stored top's clock 5 strictly behind the
entries' max clock 10 and `clock_lag = 0`, the claim says a reload is
triggered; the code instead clamps the negative lag to 0 and derives the
top directly from the entries without reloading. -/
theorem get_top_book_states_behind_counterexample :
    c6Top.clock < c6Books.foldl (fun x p => clockStep x p.2) (-1) ∧
    c6State.get_top_book_states 4 0 ≠ .reload ∧
    c6State.get_top_book_states 4 0 =
      .derived (some ⟨"a", false, 100, 1, 10⟩) none 0 := by
  exact ⟨by decide, by decide, by decide⟩

/-- C6 amended: the staleness-checked top query compares the stored top's
clock with the max entry clock; it reloads the books when the stored top is
absent, when the book-state map is absent, or when the stored top leads the
entries' max clock by more than `clock_lag`; when the stored top is behind
or within `clock_lag`, the lag is clamped at zero and the top bid (maximum
bid price) and top ask (minimum ask price) are derived directly from the
entries without reloading. -/
theorem get_top_book_states_spec (st : MarketState) (contract_id : Nat)
    (clock_lag : Int) (books : List (String × BookState)) (t : TopBook)
    (hb : lookupKey contract_id st.book_states = some books)
    (ht : lookupKey contract_id st.book_top = some t)
    (hcl : 0 ≤ clock_lag) :
    (clock_lag < t.clock - books.foldl (fun x p => clockStep x p.2) (-1) →
      st.get_top_book_states contract_id clock_lag = .reload) ∧
    (t.clock - books.foldl (fun x p => clockStep x p.2) (-1) ≤ clock_lag →
      st.get_top_book_states contract_id clock_lag =
        .derived (books.foldl (fun b p => bsBidStep b p.2) none)
          (books.foldl (fun a p => bsAskStep a p.2) none)
          (if t.clock - books.foldl (fun x p => clockStep x p.2) (-1) < 0 then 0
           else t.clock - books.foldl (fun x p => clockStep x p.2) (-1))) ∧
    (∀ cid2, lookupKey cid2 st.book_top = none →
      st.get_top_book_states cid2 clock_lag = .reload) ∧
    (∀ cid2, lookupKey cid2 st.book_states = none →
      st.get_top_book_states cid2 clock_lag = .reload) ∧
    ((books.foldl (fun b p => bsBidStep b p.2) none).map (fun x => x.price) =
      ((books.filter (fun p => !p.2.is_ask)).map (fun p => p.2.price)).max?) ∧
    ((books.foldl (fun a p => bsAskStep a p.2) none).map (fun x => x.price) =
      ((books.filter (fun p => p.2.is_ask)).map (fun p => p.2.price)).min?) := by
  refine ⟨?_, ?_, ?_, ?_, ?_, ?_⟩
  · intro hlead
    simp only [MarketState.get_top_book_states, hb, ht]
    generalize hg : books.foldl (fun x p => clockStep x p.2) (-1) = m at hlead ⊢
    have h0 : ¬ t.clock - m < 0 := by linarith
    rw [if_neg h0, if_pos (Or.inr (Or.inl hlead))]
  · intro hle
    simp only [MarketState.get_top_book_states, hb, ht]
    generalize hg : books.foldl (fun x p => clockStep x p.2) (-1) = m at hle ⊢
    by_cases h0 : t.clock - m < 0
    · rw [if_pos h0, if_neg ?hc]
      case hc =>
        rintro (h | h | h | h)
        · exact absurd h (by norm_num)
        · exact absurd h (not_lt.mpr hcl)
        · exact Option.noConfusion h
        · exact Option.noConfusion h
    · rw [if_neg h0, if_neg ?hc2]
      case hc2 =>
        have hlag : t.clock - m ≤ clock_lag := hle
        rintro (h | h | h | h)
        · exact absurd h h0
        · exact absurd h (not_lt.mpr hlag)
        · exact Option.noConfusion h
        · exact Option.noConfusion h
  · intro cid2 h2
    simp only [MarketState.get_top_book_states, h2]
    rw [if_pos (Or.inl (by norm_num : (-1 : Int) < 0))]
  · intro cid2 h2
    simp only [MarketState.get_top_book_states, h2]
    split <;> rfl
  · exact (bsBidFold_price books none).trans (bidFold_eq_max books)
  · exact (bsAskFold_price books none).trans (askFold_eq_min books)

/-- C6 witness: at the concrete behind-top state the amended theorem's
no-reload branch applies and the derived result is the bid entry with
lag 0. -/
theorem get_top_book_states_spec_witness :
    (0 : Int) ≤ 0 ∧
    c6State.get_top_book_states 4 0 =
      .derived (some ⟨"a", false, 100, 1, 10⟩) none 0 := by
  refine ⟨le_refl 0, ?_⟩
  have h := (get_top_book_states_spec c6State 4 0 c6Books c6Top
      (by decide) (by decide) (le_refl 0)).2.1 (by decide)
  exact h.trans (by decide)

/-- The last-trade record that `handle_trade` builds from an action report
(`test` in the source): timestamp is the report's `updated_time`, side is
`"ask"`/`"bid"` from `is_ask`, label comes from the contract. -/
def mk_last_trade (label : String) (o : Order) : Trade :=
  ⟨o.contract_id, o.order_type, o.filled_price, o.filled_size, o.updated_time,
   label, if o.is_ask then "ask" else "bid", o.mpid⟩

/-- `MarketState.handle_trade`: record an action report as the contract's
last trade only when its timestamp is strictly greater than the stored one
(ties and older reports leave the stored trade unchanged).  A missing
contract (label lookup) or uninitialized last-trade map is `none`. -/
def MarketState.handle_trade (st : MarketState) (action_report : Order) :
    Option MarketState :=
  match lookupKey action_report.contract_id st.all_contracts with
  | none => none
  | some c =>
    match st.last_trade with
    | none => none
    | some lt =>
      let test := mk_last_trade c.label action_report
      match lookupKey action_report.contract_id lt with
      | none =>
        some { st with last_trade := some (upsert action_report.contract_id test lt) }
      | some last =>
        if test.timestamp > last.timestamp then
          some { st with last_trade := some (upsert action_report.contract_id test lt) }
        else some st

/-- One iteration of the `process_trades` loop: a trade is skipped only
when its timestamp is strictly smaller than the stored one; an equal or
greater timestamp stores the incoming trade. -/
def processTradeStep (lt : List (Nat × Trade)) (trade : Trade) : List (Nat × Trade) :=
  match lookupKey trade.contract_id lt with
  | none => upsert trade.contract_id trade lt
  | some last =>
    if trade.timestamp < last.timestamp then lt
    else upsert trade.contract_id trade lt

/-- `MarketState.process_trades`: ingest a batch of REST trade rows into
the last-trade map, in order. -/
def MarketState.process_trades (st : MarketState) (trades : List Trade) :
    Option MarketState :=
  match st.last_trade with
  | none => none
  | some lt => some { st with last_trade := some (trades.foldl processTradeStep lt) }

/-- The stored last trade for contract 1 in the C8 counterexample. -/
def c8A : Trade := ⟨1, "limit", 10, 1, 100, "L", "bid", none⟩

/-- An incoming replay trade with the same timestamp but different data. -/
def c8B : Trade := ⟨1, "limit", 20, 1, 100, "L", "ask", none⟩

/-- A state whose last-trade map holds `c8A`. -/
def c8State : MarketState := { emptyMS with last_trade := some [(1, c8A)] }

/-- C8 counterexample: trade-replay ingestion does not drop a trade whose
timestamp ties the stored one — `process_trades` replaces the stored trade
`c8A` by the equal-timestamp trade `c8B`, so the claim that both ingestion
paths drop ties is false. -/
theorem process_trades_tie_counterexample :
    c8B.timestamp = c8A.timestamp ∧ c8B ≠ c8A ∧
    c8State.process_trades [c8B] =
      some { c8State with last_trade := some [(1, c8B)] } := by
  exact ⟨rfl, by decide, by decide⟩

/-- C8 amended: both paths keep, per contract, a single most recent trade
by timestamp, but with different tie handling: the live handler
(`handle_trade`) replaces the stored trade only on a strictly greater
timestamp, dropping ties and older reports; trade-replay ingestion
(`process_trades`) drops only strictly older trades, so a trade whose
timestamp equals the stored one replaces it. -/
theorem last_trade_spec (st : MarketState) (o : Order) (c : Contract)
    (lt : List (Nat × Trade)) (last : Trade)
    (hc : lookupKey o.contract_id st.all_contracts = some c)
    (hlt : st.last_trade = some lt)
    (hlast : lookupKey o.contract_id lt = some last) :
    (o.updated_time ≤ last.timestamp → st.handle_trade o = some st) ∧
    (last.timestamp < o.updated_time →
      st.handle_trade o =
        some { st with
          last_trade := some (upsert o.contract_id (mk_last_trade c.label o) lt) }) ∧
    (∀ (lt2 : List (Nat × Trade)) (tr last2 : Trade),
      lookupKey tr.contract_id lt2 = some last2 →
      (tr.timestamp < last2.timestamp → processTradeStep lt2 tr = lt2) ∧
      (last2.timestamp ≤ tr.timestamp →
        processTradeStep lt2 tr = upsert tr.contract_id tr lt2)) ∧
    (∀ trades : List Trade,
      st.process_trades trades =
        some { st with last_trade := some (trades.foldl processTradeStep lt) }) := by
  refine ⟨fun hle => ?_, fun hgt => ?_, fun lt2 tr last2 h2 => ⟨fun hlt2 => ?_, fun hge => ?_⟩,
    fun trades => ?_⟩
  · simp only [MarketState.handle_trade, hc, hlt, hlast, mk_last_trade]
    rw [if_neg (not_lt.mpr hle)]
  · simp only [MarketState.handle_trade, hc, hlt, hlast, mk_last_trade]
    rw [if_pos hgt]
  · simp only [processTradeStep, h2]
    rw [if_pos hlt2]
  · simp only [processTradeStep, h2]
    rw [if_neg (not_lt.mpr hge)]
  · simp only [MarketState.process_trades, hlt]

/-- An action report for contract 1 with a timestamp tying the stored
last trade, used by the C8 witness. -/
def c8Order : Order :=
  ⟨"m1", 1, 7, 1, 0, 20, 201, none, true, 1, 20, 100, "limit"⟩

/-- A state tracking contract 1 with `c8A` as its last trade. -/
def c8WState : MarketState :=
  { emptyMS with
     all_contracts := [(1, c1Contract)],
     last_trade := some [(1, c8A)] }

/-- C8 witness: the live handler drops an action report whose timestamp
(100) ties the stored last trade's timestamp, leaving the state unchanged,
while the replay path replaces on the same tie. -/
theorem last_trade_spec_witness :
    c8Order.updated_time ≤ c8A.timestamp ∧
    c8WState.handle_trade c8Order = some c8WState ∧
    c8WState.process_trades [c8B] =
      some { c8WState with last_trade := some [(1, c8B)] } := by
  have h := last_trade_spec c8WState c8Order c1Contract [(1, c8A)] c8A
    (by decide) rfl (by decide)
  refine ⟨by decide, h.1 (by decide), ?_⟩
  exact (h.2.2.2 [c8B]).trans (by decide)

/-- `MarketState.is_my_order`: the engine's own trader id is set and equals
the order's (optional) trader id. -/
def MarketState.is_my_order (st : MarketState) (order : Order) : Bool :=
  match st.mpid, order.mpid with
  | some m, some m' => m = m'
  | _, _ => false

/-- `MarketState.replace_existing_order`: replace a tracked order only when
the incoming clock is ≥ the stored clock and the incoming tick is strictly
greater (zero incoming size removes instead of replacing); an ownership
downgrade (stored order mine, incoming not) is ignored; stale or duplicate
updates leave the state unchanged.  The entry asserts (order tracked,
contract known) are `none` on failure. -/
def MarketState.replace_existing_order (st : MarketState) (order : Order) :
    Option MarketState :=
  let mid := order.mid
  let contract_id := order.contract_id
  match lookupKey contract_id st.orders with
  | none => none
  | some contract_orders =>
    match lookupKey mid contract_orders with
    | none => none
    | some existing =>
      match lookupKey contract_id st.all_contracts with
      | none => none
      | some _ =>
        if existing.clock ≤ order.clock ∧ existing.ticks < order.ticks then
          if st.is_my_order existing && !(st.is_my_order order) then some st
          else
            if order.size = 0 then
              some { st with
                orders := upsert contract_id (eraseKey mid contract_orders) st.orders }
            else
              some { st with
                orders := upsert contract_id (upsert mid order contract_orders) st.orders }
        else some st

/-- `MarketState.insert_new_order`: insert a first-seen order; the contract
must be known (label access), and for the trader's own orders the
not-already-tracked assert is modeled as `none`. -/
def MarketState.insert_new_order (st : MarketState) (order : Order) :
    Option MarketState :=
  let mid := order.mid
  let contract_id := order.contract_id
  let contract_orders := (lookupKey contract_id st.orders).getD []
  match lookupKey contract_id st.all_contracts with
  | none => none
  | some _ =>
    if st.is_my_order order && (lookupKey mid contract_orders).isSome then none
    else
      some { st with
        orders := upsert contract_id (upsert mid order contract_orders) st.orders }

/-- The book-level view of an order, as passed to `handle_book_state`. -/
def bookStateOfOrder (o : Order) : BookState :=
  ⟨o.mid, o.is_ask, o.price, o.size, o.clock⟩

/-- `MarketState.handle_book_state`: upsert a book entry with a clock
guard; a contract whose book-state map has not been loaded is not tracked
and the update is ignored. -/
def MarketState.handle_book_state (st : MarketState) (contract_id : Nat)
    (book_state : BookState) : MarketState :=
  match lookupKey contract_id st.book_states with
  | none => st
  | some books =>
    match lookupKey book_state.mid books with
    | none =>
      { st with book_states :=
          upsert contract_id (upsert book_state.mid book_state books) st.book_states }
    | some book_order =>
      if book_state.clock < book_order.clock then st
      else
        { st with book_states :=
            upsert contract_id (upsert book_state.mid book_state books) st.book_states }

/-- `MarketState.delete_book_state`: drop a book entry if its contract is
tracked. -/
def MarketState.delete_book_state (st : MarketState) (contract_id : Nat)
    (mid : String) : MarketState :=
  match lookupKey contract_id st.book_states with
  | none => st
  | some books =>
    { st with book_states := upsert contract_id (eraseKey mid books) st.book_states }

/-- `MarketState.handle_order`: dispatch an order status report.  An
unknown contract would trigger a network retrieval (`none`).  An untracked
order with a non-200 status is first synthesized via `insert_new_order`.
Status 200 inserts or replaces under the clock/tick guard and updates the
book entry; status 201 (cross) updates or removes the order — removal of
the trader's own fully-filled order happens without any clock/tick guard —
updates or removes the book entry, and records the last trade; status 203
(cancel), 610 (expired) and other ≥600 statuses remove the order, the
first two also its book entry, all without a clock/tick guard; 202 and 300
only log. -/
def MarketState.handle_order (st0 : MarketState) (order : Order) :
    Option MarketState := do
  let mid := order.mid
  let contract_id := order.contract_id
  match lookupKey contract_id st0.all_contracts with
  | none => none
  | some _ =>
    let st1 := if (lookupKey contract_id st0.orders).isSome then st0
               else { st0 with orders := upsert contract_id [] st0.orders }
    let status := order.status_type
    let exists0 := (lookupKey mid ((lookupKey contract_id st1.orders).getD [])).isSome
    let st2 ← if exists0 = false ∧ status ≠ 200 then st1.insert_new_order order
              else pure st1
    if status = 200 then do
      let st3 ← if exists0 then st2.replace_existing_order order
                else st2.insert_new_order order
      pure (st3.handle_book_state contract_id (bookStateOfOrder order))
    else if status = 201 then do
      let st3 ←
        if st0.is_my_order order then do
          let co := (lookupKey contract_id st2.orders).getD []
          match lookupKey mid co with
          | none => none
          | some stored =>
            let ok : Bool :=
              match stored.mpid with
              | some m => st0.mpid = some m
              | none => true
            if ok then
              if order.size ≠ 0 then st2.replace_existing_order order
              else pure { st2 with orders := upsert contract_id (eraseKey mid co) st2.orders }
            else none
        else st2.replace_existing_order order
      let st4 := if order.size ≠ 0 then
                   st3.handle_book_state contract_id (bookStateOfOrder order)
                 else st3.delete_book_state contract_id mid
      st4.handle_trade order
    else if status = 202 then pure st2
    else if status = 203 then do
      let co := (lookupKey contract_id st2.orders).getD []
      let st3 := if (lookupKey mid co).isSome then
                   { st2 with orders := upsert contract_id (eraseKey mid co) st2.orders }
                 else st2
      pure (st3.delete_book_state contract_id mid)
    else if status = 300 then pure st2
    else if status = 610 then do
      let co := (lookupKey contract_id st2.orders).getD []
      let st3 := if (lookupKey mid co).isSome then
                   { st2 with orders := upsert contract_id (eraseKey mid co) st2.orders }
                 else st2
      pure (st3.delete_book_state contract_id mid)
    else if 600 ≤ status then do
      let co := (lookupKey contract_id st2.orders).getD []
      pure (if (lookupKey mid co).isSome then
              { st2 with orders := upsert contract_id (eraseKey mid co) st2.orders }
            else st2)
    else pure st2

/-- A tracked resting order of the trader (clock 5, tick 3, size 2). -/
def c2Stored : Order :=
  ⟨"a", 1, 5, 3, 2, 100, 200, some "M", false, 0, 0, 50, "limit"⟩

/-- An incoming status-201 full-fill report for the same order with a
strictly smaller clock (4 < 5) and smaller tick. -/
def c2Incoming : Order :=
  ⟨"a", 1, 4, 1, 0, 100, 201, some "M", true, 2, 100, 60, "limit"⟩

/-- A state tracking `c2Stored` for the local trader `"M"`. -/
def c2State : MarketState :=
  { emptyMS with
     mpid := some "M",
     all_contracts := [(1, c1Contract)],
     orders := [(1, [("a", c2Stored)])] }

/-- C2 counterexample: an incoming update whose clock (4) is strictly less
than the stored clock (5) does not leave the stored order unchanged — a
status-201 full fill of the trader's own order removes it from the order
map with no clock/tick check, so the claimed guard does not hold for every
incoming update. -/
theorem handle_order_stale_removal_counterexample :
    c2Incoming.clock < c2Stored.clock ∧
    lookupKey "a" ((lookupKey 1 c2State.orders).getD []) = some c2Stored ∧
    (c2State.handle_order c2Incoming).map
        (fun s => lookupKey "a" ((lookupKey 1 s.orders).getD [])) = some none := by
  exact ⟨by decide, by decide, by decide⟩

/-- C2 amended: the clock/tick guard governs the replacement routine
(`replace_existing_order`, used by status-200 updates and by crosses that
leave size behind): an update with clock < stored clock, or clock = stored
clock and tick ≤ stored tick, leaves the state unchanged; the routine
changes the state (replacing the order, or removing it when the incoming
size is zero) only when the incoming clock is ≥ the stored clock and the
incoming tick is strictly greater.  Removals via `handle_order` for
cancellations, expirations, rejections and full fills of the trader's own
orders happen without this guard. -/
theorem replace_existing_order_spec (st : MarketState) (order existing : Order)
    (co : List (String × Order)) (c : Contract)
    (hco : lookupKey order.contract_id st.orders = some co)
    (hex : lookupKey order.mid co = some existing)
    (hc : lookupKey order.contract_id st.all_contracts = some c) :
    ((order.clock < existing.clock ∨
      (order.clock = existing.clock ∧ order.ticks ≤ existing.ticks)) →
      st.replace_existing_order order = some st) ∧
    (∀ st', st.replace_existing_order order = some st' → st' ≠ st →
      existing.clock ≤ order.clock ∧ existing.ticks < order.ticks) ∧
    (existing.clock ≤ order.clock → existing.ticks < order.ticks →
      ¬(st.is_my_order existing && !(st.is_my_order order)) = true →
      (order.size = 0 →
        st.replace_existing_order order =
          some { st with
            orders := upsert order.contract_id (eraseKey order.mid co) st.orders }) ∧
      (order.size ≠ 0 →
        st.replace_existing_order order =
          some { st with
            orders := upsert order.contract_id (upsert order.mid order co) st.orders })) := by
  refine ⟨fun hstale => ?_, fun st' hrun hne => ?_, fun hck htk hmy => ⟨fun hz => ?_, fun hnz => ?_⟩⟩
  · simp only [MarketState.replace_existing_order, hco, hex, hc]
    rw [if_neg ?hg]
    case hg =>
      rintro ⟨h1, h2⟩
      rcases hstale with h | ⟨h, h'⟩
      · exact absurd h1 (not_le.mpr h)
      · exact absurd h2 (not_lt.mpr (by omega))
  · by_cases hg : existing.clock ≤ order.clock ∧ existing.ticks < order.ticks
    · exact hg
    · simp only [MarketState.replace_existing_order, hco, hex, hc] at hrun
      rw [if_neg hg] at hrun
      exact absurd (Option.some.inj hrun).symm hne
  · simp only [MarketState.replace_existing_order, hco, hex, hc]
    rw [if_pos ⟨hck, htk⟩, if_neg ?hm, if_pos hz]
    case hm => simpa using hmy
  · simp only [MarketState.replace_existing_order, hco, hex, hc]
    rw [if_pos ⟨hck, htk⟩, if_neg ?hm2, if_neg hnz]
    case hm2 => simpa using hmy

/-- A stale third-party update (clock 4 < 5) for the tracked order. -/
def c2StaleUpdate : Order :=
  ⟨"a", 1, 4, 1, 3, 100, 200, none, false, 0, 0, 55, "limit"⟩

/-- C2 witness: the replacement routine leaves the state unchanged on an
update whose clock is strictly smaller than the stored clock. -/
theorem replace_existing_order_spec_witness :
    c2StaleUpdate.clock < c2Stored.clock ∧
    c2State.replace_existing_order c2StaleUpdate = some c2State := by
  refine ⟨by decide, ?_⟩
  exact (replace_existing_order_spec c2State c2StaleUpdate c2Stored [("a", c2Stored)]
    c1Contract (by decide) (by decide) (by decide)).1 (Or.inl (by decide))

/-- `MarketState.is_same_option_date`: both contracts carry an `is_call`
flag and agree on it, on expiry date, derivative type and underlying
asset. -/
def MarketState.is_same_option_date (a b : Contract) : Bool :=
  match a.is_call, b.is_call with
  | some x, some y =>
    x = y && a.date_expires = b.date_expires && a.derivative_type = b.derivative_type
      && a.underlying_asset = b.underlying_asset
  | _, _ => false

/-- The fair value used by the covered-call check: the next-day swap's top
bid, averaged with the ask when both are quoted (`None` when there is no
top or no bid). -/
def coveredCallFmv (top : Option TopBook) : Option ℚ :=
  match MarketState.bid top with
  | none => none
  | some b =>
    match MarketState.ask top with
    | none => some (b : ℚ)
    | some a => some (((b : ℚ) + (a : ℚ)) / 2)

/-- The same-expiry same-asset same-type strike list, sorted descending
(the source sorts in place with `reverse=True`). -/
def siblingStrikes (contract : Contract) (acs : List (Nat × Contract)) : List Int :=
  List.insertionSort (· ≥ ·)
    ((acs.filter (fun p => MarketState.is_same_option_date contract p.2)).map
      (fun p => p.2.strike_price))

/-- One iteration of the descending strike scan: bump the count of strikes
at-or-below fair value, then advance the lowest qualifying strike while the
count stays within the threshold (1 beyond 30 days, additionally 2 beyond
90 days). -/
def lowestStrikeStep (fmv days : ℚ) (acc : Int × Nat) (strike : Int) : Int × Nat :=
  let past := if (strike : ℚ) ≤ fmv then acc.2 + 1 else acc.2
  let lowest := if past ≤ 1 ∧ days > 30 then strike else acc.1
  let lowest := if past ≤ 2 ∧ days > 90 then strike else lowest
  (lowest, past)

/-- The lowest qualifying strike computed by scanning the descending strike
list, starting from its first (highest) element. -/
def lowestStrike (strikes : List Int) (first : Int) (fmv days : ℚ) : Int :=
  (strikes.foldl (lowestStrikeStep fmv days) (first, 0)).1

/-- `MarketState.is_qualified_covered_call`, with the ambient inputs made
explicit: `days` is the contract's time to expiry in days and `top` is the
book top of the resolved next-day swap (`None` when there is no live swap
or no books); the contract list stands for `all_contracts`.  A missing
`is_call` key or an empty strike list would raise in the source (`none`
here; the list always contains the contract itself in practice). -/
def MarketState.is_qualified_covered_call (contract : Contract) (days : ℚ)
    (top : Option TopBook) (acs : List (Nat × Contract)) : Option Bool :=
  match contract.is_call with
  | none => none
  | some ic =>
    if ic = false then some false
    else if days ≤ 30 then some false
    else
      match coveredCallFmv top with
      | none => some false
      | some f =>
        match siblingStrikes contract acs with
        | [] => none
        | s0 :: rest =>
          some (decide (contract.strike_price ≥ lowestStrike (s0 :: rest) s0 f days))

/-- A scenario contract: a call on BTC at the given strike, expiring on the
shared date. -/
def c7Call (i : Nat) (strike : Int) : Contract :=
  ⟨i, "BTC-Call", "BTC", "options_contract", some true, strike,
   "2021-02-10 14:00:00+0000", "2020-01-01 00:00:00+0000", false, true⟩

/-- The scenario catalog: sibling calls at strikes 11000, 10000, 9000 and
8000. -/
def c7Acs : List (Nat × Contract) :=
  [(11, c7Call 11 11000), (12, c7Call 12 10000), (13, c7Call 13 9000),
   (14, c7Call 14 8000)]

/-- The next-day swap's top: bid 9000, ask 10000, so mid (fair value) is
9500. -/
def c7Top : TopBook := ⟨some 9000, some 10000, 99, 1⟩

/-- C7: the covered-call check returns false for non-calls and for calls
with at most 30 days to expiry; otherwise, with the next-day swap's mid as
fair value and the sibling strikes sorted descending, it returns whether
the contract's strike is at or above the lowest strike allowed by the rank
scan (at most 1 strike at-or-below fair value beyond 30 days, at most 2
beyond 90); in the scenario (call, 40 days, fair value 9500, strikes
[11000, 10000, 9000, 8000]) the lowest qualifying strike is 9000, so
strikes 11000, 10000 and 9000 qualify and 8000 does not. -/
theorem is_qualified_covered_call_spec :
    (∀ (contract : Contract) (days : ℚ) (top : Option TopBook)
       (acs : List (Nat × Contract)), contract.is_call = some false →
      MarketState.is_qualified_covered_call contract days top acs = some false) ∧
    (∀ (contract : Contract) (days : ℚ) (top : Option TopBook)
       (acs : List (Nat × Contract)) (b : Bool), contract.is_call = some b →
      days ≤ 30 →
      MarketState.is_qualified_covered_call contract days top acs = some false) ∧
    (∀ (contract : Contract) (days : ℚ) (top : Option TopBook)
       (acs : List (Nat × Contract)) (f : ℚ) (s0 : Int) (rest : List Int),
      contract.is_call = some true → 30 < days →
      coveredCallFmv top = some f →
      siblingStrikes contract acs = s0 :: rest →
      MarketState.is_qualified_covered_call contract days top acs =
        some (decide (contract.strike_price ≥ lowestStrike (s0 :: rest) s0 f days))) ∧
    coveredCallFmv (some c7Top) = some 9500 ∧
    lowestStrike [11000, 10000, 9000, 8000] 11000 9500 40 = 9000 ∧
    MarketState.is_qualified_covered_call (c7Call 11 11000) 40 (some c7Top) c7Acs = some true ∧
    MarketState.is_qualified_covered_call (c7Call 12 10000) 40 (some c7Top) c7Acs = some true ∧
    MarketState.is_qualified_covered_call (c7Call 13 9000) 40 (some c7Top) c7Acs = some true ∧
    MarketState.is_qualified_covered_call (c7Call 14 8000) 40 (some c7Top) c7Acs = some false := by
  have hchar : ∀ (contract : Contract) (days : ℚ) (top : Option TopBook)
      (acs : List (Nat × Contract)) (f : ℚ) (s0 : Int) (rest : List Int),
      contract.is_call = some true → 30 < days →
      coveredCallFmv top = some f →
      siblingStrikes contract acs = s0 :: rest →
      MarketState.is_qualified_covered_call contract days top acs =
        some (decide (contract.strike_price ≥ lowestStrike (s0 :: rest) s0 f days)) := by
    intro contract days top acs f s0 rest hic hdays hf hs
    have hnle : ¬ days ≤ 30 := not_le.mpr hdays
    simp [MarketState.is_qualified_covered_call, hic, hnle, hf, hs]
  have hfmv : coveredCallFmv (some c7Top) = some 9500 := by
    norm_num [coveredCallFmv, MarketState.bid, MarketState.ask, c7Top]
  have hlow : lowestStrike [11000, 10000, 9000, 8000] 11000 9500 40 = 9000 := by
    norm_num [lowestStrike, lowestStrikeStep]
  have hsib : ∀ i : Nat, ∀ s : Int,
      siblingStrikes (c7Call i s) c7Acs = [11000, 10000, 9000, 8000] := by
    intro i s
    simp [siblingStrikes, c7Acs, MarketState.is_same_option_date, c7Call]
  refine ⟨fun contract days top acs h => ?_,
    fun contract days top acs b h hle => ?_, hchar, hfmv, hlow, ?_, ?_, ?_, ?_⟩
  · simp [MarketState.is_qualified_covered_call, h]
  · rcases b with _ | _
    · simp [MarketState.is_qualified_covered_call, h]
    · simp [MarketState.is_qualified_covered_call, h, hle]
  · rw [hchar (c7Call 11 11000) 40 (some c7Top) c7Acs 9500 11000 [10000, 9000, 8000]
      rfl (by norm_num) hfmv (hsib 11 11000), hlow]
    decide
  · rw [hchar (c7Call 12 10000) 40 (some c7Top) c7Acs 9500 11000 [10000, 9000, 8000]
      rfl (by norm_num) hfmv (hsib 12 10000), hlow]
    decide
  · rw [hchar (c7Call 13 9000) 40 (some c7Top) c7Acs 9500 11000 [10000, 9000, 8000]
      rfl (by norm_num) hfmv (hsib 13 9000), hlow]
    decide
  · rw [hchar (c7Call 14 8000) 40 (some c7Top) c7Acs 9500 11000 [10000, 9000, 8000]
      rfl (by norm_num) hfmv (hsib 14 8000), hlow]
    decide

/-- A put sibling used by the C7 witness. -/
def c7Put : Contract :=
  ⟨15, "BTC-Put", "BTC", "options_contract", some false, 10000,
   "2021-02-10 14:00:00+0000", "2020-01-01 00:00:00+0000", false, true⟩

/-- C7 witness: a put is never a qualified covered call. -/
theorem is_qualified_covered_call_spec_witness :
    c7Put.is_call = some false ∧
    MarketState.is_qualified_covered_call c7Put 40 (some c7Top) c7Acs = some false := by
  exact ⟨rfl, is_qualified_covered_call_spec.1 c7Put 40 (some c7Top) c7Acs rfl⟩
